import Mathlib

/-!
Shallow embedding of `src/version.go` (package `versioner`): a deterministic
CalVer string generator for CI pipelines.

Modelling conventions:
* Go strings are modelled as Lean `String`; Go byte-wise lexicographic string
  comparison (`t > last`) is modelled by `ltL` on the character lists (for
  valid UTF-8 the byte order and the code-point order agree, since UTF-8 is
  order preserving).
* Go `int` is 64-bit (the usual platform width); `max + 1` in `nextPatch` is
  therefore computed with two's-complement wrap-around, modelled by `wrap64`.
  `strconv.Atoi` on an all-digit string returns the clamped value
  `min v (2^63-1)` together with a range error that the code discards;
  this is modelled by `atoiGo`.
* `time.Time` is modelled by the calendar date `Date` (the only layout the
  code formats is the date layout "2006.01.02").
* The injected capability `LookupTags func() ([]string, error)` is modelled by
  its result: a pair of the returned tag list and an optional error.
  `Version` receives this pair.  The wall clock read by `time.Now()` inside
  `latestFinal` is a separate explicit parameter `now` of `Version`,
  distinct from the `Time` field of the context.
* Go regexp `\d` is exactly `[0-9]`, i.e. `Char.isDigit`.
-/

namespace Versioner

/-- Model of `time.Time`, reduced to the calendar date, the only part the
code ever formats. -/
structure Date where
  y : Nat
  m : Nat
  d : Nat
deriving DecidableEq

/-- `Config` from `src/version.go`. -/
structure Config where
  DefaultBranch : String
  Prefix : String
  FeatureSuffix : String
deriving DecidableEq

/-- `BuildContext` from `src/version.go`; the `LookupTags` capability is not a
field here but is passed to `Version` as its result (tag list, optional
error). -/
structure BuildContext where
  Branch : String
  PipelineID : String
  Time : Date
  Config : Config
deriving DecidableEq

/-- `branchKind` from `src/version.go`. -/
inductive branchKind where
  | typeFeature
  | typeDefault
  | typeRelease
deriving DecidableEq

/-- Result of the injected `LookupTags` capability: the returned tag list and
the returned error (`none` = nil error). -/
abbrev LookupResult := List String × Option String

/-- Byte-wise lexicographic strict order on character lists, the model of
Go string comparison `<`/`>`. -/
def ltL : List Char → List Char → Bool
  | _, [] => false
  | [], _ :: _ => true
  | a :: as, b :: bs =>
    if a.toNat < b.toNat then true
    else if b.toNat < a.toNat then false
    else ltL as bs

/-- `strings.HasPrefix` on the character lists. -/
def hasPrefixL (s pre : List Char) : Bool :=
  s.take pre.length = pre

/-- `classify` from `src/version.go`. -/
def classify (dflt br : String) : branchKind :=
  if br = dflt then .typeDefault
  else if hasPrefixL br.data "release/".data then .typeRelease
  else .typeFeature

/-- `strings.TrimSuffix(p, "-")`: drop one trailing dash if present. -/
def trimSuffixDash (p : String) : String :=
  if p.data.getLast? = some '-' then String.mk p.data.dropLast else p

/-- `strings.TrimPrefix(s, "-")`: drop one leading dash if present. -/
def trimPrefixDash (s : String) : String :=
  match s.data with
  | '-' :: rest => String.mk rest
  | _ => s

/-- `addPrefix` from `src/version.go`. -/
def addPrefix (v p : String) : String :=
  if p = "" then v else trimSuffixDash p ++ "-" ++ v

/-- Zero-pad a number to two digits (Go layout element "01"/"02"). -/
def pad2 (n : Nat) : String :=
  if n < 10 then "0" ++ Nat.repr n else Nat.repr n

/-- Zero-pad a number to four digits (Go layout element "2006"). -/
def pad4 (n : Nat) : String :=
  if n < 10 then "000" ++ Nat.repr n
  else if n < 100 then "00" ++ Nat.repr n
  else if n < 1000 then "0" ++ Nat.repr n
  else Nat.repr n

/-- `t.Format("2006.01.02")`. -/
def fmtDate (t : Date) : String :=
  pad4 t.y ++ "." ++ pad2 t.m ++ "." ++ pad2 t.d

/-- `finalTagRE = ^\d{4}\.\d{2}\.\d{2}\.\d+$` from `src/version.go`, as a
predicate on the character list of a tag.  The capture group of
`relBranchRE` is the same pattern. -/
def matchFinal : List Char → Bool
  | y1 :: y2 :: y3 :: y4 :: c1 :: m1 :: m2 :: c2 :: d1 :: d2 :: c3 :: rest =>
    y1.isDigit && y2.isDigit && y3.isDigit && y4.isDigit && (c1 == '.') &&
    m1.isDigit && m2.isDigit && (c2 == '.') &&
    d1.isDigit && d2.isDigit && (c3 == '.') &&
    (!rest.isEmpty && rest.all Char.isDigit)
  | _ => false

/-- One step of the scan loop of `latestFinal`:
`if finalTagRE.MatchString(t) && t > last { last = t }`. -/
def lastStep (last t : String) : String :=
  if matchFinal t.data && ltL last.data t.data then t else last

/-- `latestFinal` from `src/version.go`.  Note: the returned error of the
lookup is discarded (`ts, _ := lookup()`), and the fallback base is seeded
from the wall clock `time.Now()` (parameter `now`), not from the context
timestamp. -/
def latestFinal (lookupRes : LookupResult) (now : Date) : String :=
  let last := lookupRes.fst.foldl lastStep ""
  if last = "" then fmtDate now ++ ".0" else last

/-- `relBranchRE.FindStringSubmatch`: `^release/v(\d{4}\.\d{2}\.\d{2}\.\d+)$`,
returning the capture group. -/
def relParseL : List Char → Option (List Char)
  | 'r' :: 'e' :: 'l' :: 'e' :: 'a' :: 's' :: 'e' :: '/' :: 'v' :: rest =>
    if matchFinal rest then some rest else none
  | _ => none

/-- Numeric value of a decimal digit list (the value `strconv.Atoi` parses). -/
def digitsVal (ds : List Char) : Nat :=
  ds.foldl (fun a c => a * 10 + (c.toNat - 48)) 0

/-- `strconv.Atoi` on an all-digit string with the range error discarded:
on 64-bit overflow Go returns the clamped value `2^63 - 1`. -/
def atoiGo (ds : List Char) : Int :=
  min (digitsVal ds : Int) (2 ^ 63 - 1)

/-- Two's-complement wrap-around into the 64-bit signed range, the result of
Go `int` addition. -/
def wrap64 (x : Int) : Int :=
  (x + 2 ^ 63) % 2 ^ 64 - 2 ^ 63

/-- Match of the per-base patch pattern `^<base>\.(\d+)$` (with the base
quoted literally by `regexp.QuoteMeta`), returning the digit capture. -/
def patchDigits (base t : List Char) : Option (List Char) :=
  if t.take base.length = base then
    match t.drop base.length with
    | '.' :: ds => if !ds.isEmpty && ds.all Char.isDigit then some ds else none
    | _ => none
  else none

/-- One step of the max-scan loop of `nextPatch`:
`if mm := re.FindStringSubmatch(t); len(mm) == 2 { n, _ := strconv.Atoi(mm[1]); if n > max { max = n } }`. -/
def scanStep (base : List Char) (mx : Int) (t : String) : Int :=
  match patchDigits base t.data with
  | some ds => if mx < atoiGo ds then atoiGo ds else mx
  | none => mx

/-- The `max` computed by the scan loop of `nextPatch` over the tag list. -/
def scanMax (base : List Char) (ts : List String) : Int :=
  ts.foldl (scanStep base) 0

/-- `nextPatch` from `src/version.go`.  The lookup error is discarded
(`ts, _ := lookup()`); the returned patch is `max + 1` computed in Go `int`
arithmetic. -/
def nextPatch (br : String) (lookupRes : LookupResult) : Except String (String × Int) :=
  match relParseL br.data with
  | none => .error ("invalid release branch: " ++ br)
  | some base => .ok (String.mk base, wrap64 (scanMax base lookupRes.fst + 1))

/-- `(c BuildContext) Version()` from `src/version.go`.  `lookupRes` is the
result of the injected `LookupTags` capability; `now` is the wall clock read
by `time.Now()` inside `latestFinal`. -/
def BuildContext.Version (c : BuildContext) (lookupRes : LookupResult)
    (now : Date) : Except String String :=
  match classify c.Config.DefaultBranch c.Branch with
  | .typeDefault =>
    .ok (addPrefix (fmtDate c.Time ++ "." ++ c.PipelineID) c.Config.Prefix)
  | .typeRelease =>
    match nextPatch c.Branch lookupRes with
    | .error e => .error e
    | .ok (base, next) =>
      .ok (addPrefix (base ++ "." ++ toString next) c.Config.Prefix)
  | .typeFeature =>
    let base := latestFinal lookupRes now
    let v := base ++ "." ++ c.PipelineID
    let v := if trimPrefixDash c.Config.FeatureSuffix ≠ "" then
        v ++ "-" ++ trimPrefixDash c.Config.FeatureSuffix
      else v
    .ok (addPrefix v c.Config.Prefix)

/-- Modelled from the spec: the final-tag pattern as the specification
describes it, accepting both the `DATE.BUILD` and the `DATE.BUILD.PATCH`
shapes (here with the dotted date layout `\d{4}\.\d{2}\.\d{2}` in force).
Used only to compare the specified pattern with `matchFinal`, the pattern
actually implemented. -/
def specFinalTag : List Char → Bool
  | y1 :: y2 :: y3 :: y4 :: c1 :: m1 :: m2 :: c2 :: d1 :: d2 :: c3 :: rest =>
    y1.isDigit && y2.isDigit && y3.isDigit && y4.isDigit && (c1 == '.') &&
    m1.isDigit && m2.isDigit && (c2 == '.') &&
    d1.isDigit && d2.isDigit && (c3 == '.') &&
    (let ds := rest.takeWhile Char.isDigit
     let r := rest.dropWhile Char.isDigit
     !ds.isEmpty &&
       (r.isEmpty ||
         (match r with
          | '.' :: ds2 => !ds2.isEmpty && ds2.all Char.isDigit
          | _ => false)))
  | _ => false

/-- Overflow-guard predicate used when reasoning about `nextPatch`: the tag
either does not match the per-base patch pattern, or its patch value is
small enough that Go `int` arithmetic in the scan cannot overflow. -/
def patchBelow (base : List Char) (t : String) : Bool :=
  match patchDigits base t.data with
  | some ds => decide (digitsVal ds < 2 ^ 63 - 1)
  | none => true

deriving instance DecidableEq for Except

/-! ### Order lemmas for the byte-wise comparison `ltL` -/

theorem charToNat_inj {a b : Char} (h : a.toNat = b.toNat) : a = b :=
  Char.ext (UInt32.toNat.inj h)

theorem ltL_irrefl : ∀ cs, ltL cs cs = false
  | [] => rfl
  | a :: as => by simp [ltL, ltL_irrefl as]

theorem ltL_asymm : ∀ a b, ltL a b = true → ltL b a = false
  | [], [] => by intro h; simp [ltL] at h
  | [], _ :: _ => by intro _; rfl
  | _ :: _, [] => by intro h; simp [ltL] at h
  | a :: as, b :: bs => by
    intro h
    simp only [ltL] at h ⊢
    rcases Nat.lt_trichotomy a.toNat b.toNat with hlt | heq | hgt
    · simp [hlt, Nat.lt_asymm hlt]
    · simp [heq, Nat.lt_irrefl] at h ⊢
      exact ltL_asymm as bs h
    · simp [hgt, Nat.lt_asymm hgt] at h

theorem ltL_eq_of_not : ∀ a b, ltL a b = false → ltL b a = false → a = b
  | [], [] => by intro _ _; rfl
  | [], _ :: _ => by intro h _; simp [ltL] at h
  | _ :: _, [] => by intro _ h2; simp [ltL] at h2
  | a :: as, b :: bs => by
    intro h1 h2
    simp only [ltL] at h1 h2
    rcases Nat.lt_trichotomy a.toNat b.toNat with hlt | heq | hgt
    · simp [hlt] at h1
    · have hab : a = b := charToNat_inj heq
      subst hab
      simp [Nat.lt_irrefl] at h1 h2
      rw [ltL_eq_of_not as bs h1 h2]
    · simp [hgt] at h2

theorem ltL_trans : ∀ a b c, ltL a b = true → ltL b c = true → ltL a c = true
  | _, [], _ => by intro h1 _; simp [ltL] at h1
  | _, _ :: _, [] => by intro _ h2; simp [ltL] at h2
  | [], _ :: _, _ :: _ => by intro _ _; rfl
  | a :: as, b :: bs, c :: cs => by
    intro h1 h2
    simp only [ltL] at h1 h2 ⊢
    rcases Nat.lt_trichotomy a.toNat b.toNat with hab | hab | hab
    · rcases Nat.lt_trichotomy b.toNat c.toNat with hbc | hbc | hbc
      · simp [Nat.lt_trans hab hbc]
      · simp [hbc ▸ hab]
      · simp [hab, Nat.lt_asymm hab] at h1
        simp [hbc, Nat.lt_asymm hbc] at h2
    · rcases Nat.lt_trichotomy b.toNat c.toNat with hbc | hbc | hbc
      · simp [hab ▸ hbc]
      · have hac : a.toNat = c.toNat := hab.trans hbc
        simp [hab, Nat.lt_irrefl] at h1
        simp [hbc, Nat.lt_irrefl] at h2
        simp [hac, Nat.lt_irrefl]
        exact ltL_trans as bs cs h1 h2
      · simp [hbc, Nat.lt_asymm hbc] at h2
    · simp [hab, Nat.lt_asymm hab] at h1

theorem geL_trans (a b c : List Char) (h1 : ltL a b = false) (h2 : ltL b c = false) :
    ltL a c = false := by
  cases hac : ltL a c with
  | false => rfl
  | true =>
    cases hcb : ltL c b with
    | true => rw [ltL_trans a c b hac hcb] at h1; cases h1
    | false =>
      have hbc : b = c := ltL_eq_of_not b c h2 hcb
      rw [hbc] at h1
      rw [hac] at h1
      cases h1

/-! ### Lemmas about the scan loop of `latestFinal` -/

theorem lastScan_ge_init : ∀ (ts : List String) (last : String),
    ltL (ts.foldl lastStep last).data last.data = false
  | [], last => ltL_irrefl last.data
  | t :: ts, last => by
    rw [List.foldl_cons]
    have h1 := lastScan_ge_init ts (lastStep last t)
    have h2 : ltL (lastStep last t).data last.data = false := by
      unfold lastStep
      split
      · rename_i hc
        exact ltL_asymm last.data t.data (Bool.and_elim_right hc)
      · exact ltL_irrefl last.data
    exact geL_trans _ _ _ h1 h2

theorem lastScan_mem : ∀ (ts : List String) (last : String),
    ts.foldl lastStep last = last ∨
      ((ts.foldl lastStep last) ∈ ts ∧ matchFinal (ts.foldl lastStep last).data = true)
  | [], last => .inl rfl
  | t :: ts, last => by
    rw [List.foldl_cons]
    rcases lastScan_mem ts (lastStep last t) with h | ⟨h1, h2⟩
    · rw [h]
      unfold lastStep
      split
      · rename_i hc
        exact .inr ⟨List.mem_cons_self t ts, Bool.and_elim_left hc⟩
      · exact .inl rfl
    · exact .inr ⟨List.mem_cons_of_mem t h1, h2⟩

theorem lastScan_ge_elem : ∀ (ts : List String) (last t : String),
    t ∈ ts → matchFinal t.data = true →
    ltL (ts.foldl lastStep last).data t.data = false
  | [], _, t, h, _ => absurd h (List.not_mem_nil t)
  | s :: ts, last, t, h, hm => by
    rw [List.foldl_cons]
    rcases List.mem_cons.mp h with rfl | hmem
    · have hstep : ltL (lastStep last t).data t.data = false := by
        unfold lastStep
        split
        · exact ltL_irrefl t.data
        · rename_i hc
          rw [hm] at hc
          simpa using hc
      exact geL_trans _ _ _ (lastScan_ge_init ts (lastStep last t)) hstep
    · exact lastScan_ge_elem ts (lastStep last s) t hmem hm

theorem lastScan_unmatched : ∀ (ts : List String) (last : String),
    (∀ t ∈ ts, matchFinal t.data = false) → ts.foldl lastStep last = last
  | [], _, _ => rfl
  | t :: ts, last, h => by
    rw [List.foldl_cons]
    have h0 : lastStep last t = last := by
      unfold lastStep
      rw [h t (List.mem_cons_self t ts)]
      simp
    rw [h0]
    exact lastScan_unmatched ts last fun s hs => h s (List.mem_cons_of_mem t hs)

theorem matchFinal_ne_nil {cs : List Char} (h : matchFinal cs = true) : cs ≠ [] := by
  intro hnil
  rw [hnil] at h
  simp [matchFinal] at h

/-! ### Lemmas about the scan loop of `nextPatch` -/

theorem scanStep_ge_acc (base : List Char) (mx : Int) (t : String) :
    mx ≤ scanStep base mx t := by
  unfold scanStep
  split
  · split
    · rename_i h
      exact le_of_lt h
    · exact le_refl mx
  · exact le_refl mx

theorem scanFold_ge_init (base : List Char) :
    ∀ (ts : List String) (mx : Int), mx ≤ ts.foldl (scanStep base) mx
  | [], mx => le_refl mx
  | t :: ts, mx => by
    rw [List.foldl_cons]
    exact le_trans (scanStep_ge_acc base mx t) (scanFold_ge_init base ts _)

theorem scanFold_ge_elem (base : List Char) :
    ∀ (ts : List String) (mx : Int) (t : String) (ds : List Char),
    t ∈ ts → patchDigits base t.data = some ds →
    atoiGo ds ≤ ts.foldl (scanStep base) mx
  | [], _, t, _, h, _ => absurd h (List.not_mem_nil t)
  | s :: ts, mx, t, ds, h, hp => by
    rw [List.foldl_cons]
    rcases List.mem_cons.mp h with rfl | hmem
    · refine le_trans ?_ (scanFold_ge_init base ts (scanStep base mx t))
      simp only [scanStep, hp]
      split
      · exact le_refl (atoiGo ds)
      · rename_i hnot
        exact le_of_not_lt hnot
    · exact scanFold_ge_elem base ts (scanStep base mx s) t ds hmem hp

theorem scanFold_le (base : List Char) (B : Int) :
    ∀ (ts : List String) (mx : Int), mx ≤ B →
    (∀ t ∈ ts, ∀ ds, patchDigits base t.data = some ds → atoiGo ds ≤ B) →
    ts.foldl (scanStep base) mx ≤ B
  | [], mx, hmx, _ => hmx
  | t :: ts, mx, hmx, h => by
    rw [List.foldl_cons]
    refine scanFold_le base B ts (scanStep base mx t) ?_
      fun s hs ds hds => h s (List.mem_cons_of_mem t hs) ds hds
    unfold scanStep
    split
    · rename_i ds hds
      split
      · exact h t (List.mem_cons_self t ts) ds hds
      · exact hmx
    · exact hmx

theorem scanFold_none (base : List Char) :
    ∀ (ts : List String) (mx : Int),
    (∀ t ∈ ts, patchDigits base t.data = none) → ts.foldl (scanStep base) mx = mx
  | [], _, _ => rfl
  | t :: ts, mx, h => by
    rw [List.foldl_cons]
    have h0 : scanStep base mx t = mx := by
      unfold scanStep
      rw [h t (List.mem_cons_self t ts)]
    rw [h0]
    exact scanFold_none base ts mx fun s hs => h s (List.mem_cons_of_mem t hs)

theorem wrap64_eq {x : Int} (h1 : -(2 ^ 63) ≤ x) (h2 : x < 2 ^ 63) : wrap64 x = x := by
  unfold wrap64
  have h3 : (0 : Int) ≤ x + 2 ^ 63 := by linarith
  have h4 : x + 2 ^ 63 < 2 ^ 64 := by
    have : (2 : Int) ^ 64 = 2 ^ 63 + 2 ^ 63 := by norm_num
    linarith
  rw [Int.emod_eq_of_lt h3 h4]
  ring

/-! ### Shape lemmas for the three paths of `Version` -/

theorem version_default (c : BuildContext) (res : LookupResult) (now : Date)
    (h : c.Branch = c.Config.DefaultBranch) :
    c.Version res now
      = .ok (addPrefix (fmtDate c.Time ++ "." ++ c.PipelineID) c.Config.Prefix) := by
  have hcl : classify c.Config.DefaultBranch c.Branch = .typeDefault := by
    simp [classify, h]
  unfold BuildContext.Version
  rw [hcl]

theorem version_feature (c : BuildContext) (res : LookupResult) (now : Date)
    (hcl : classify c.Config.DefaultBranch c.Branch = .typeFeature) :
    c.Version res now = .ok (addPrefix
      (if trimPrefixDash c.Config.FeatureSuffix ≠ "" then
          latestFinal res now ++ "." ++ c.PipelineID ++ "-" ++ trimPrefixDash c.Config.FeatureSuffix
        else latestFinal res now ++ "." ++ c.PipelineID)
      c.Config.Prefix) := by
  unfold BuildContext.Version
  rw [hcl]

theorem version_release (c : BuildContext) (res : LookupResult) (now : Date)
    (hcl : classify c.Config.DefaultBranch c.Branch = .typeRelease) :
    c.Version res now = match nextPatch c.Branch res with
      | .error e => .error e
      | .ok (base, next) => .ok (addPrefix (base ++ "." ++ toString next) c.Config.Prefix) := by
  unfold BuildContext.Version
  rw [hcl]

/-! ### Claim theorems -/

/-- C8 counterexample: on the default branch with pipeline id 321 and date
2025-04-28 the code outputs "2025.04.28.321" (layout "2006.01.02"), not
"20250428.321" as the claim states. -/
theorem C8_counterexample :
    (⟨"main", "321", ⟨2025, 4, 28⟩, ⟨"main", "", ""⟩⟩ : BuildContext).Version
        ([], none) ⟨2025, 4, 28⟩ = .ok "2025.04.28.321"
    ∧ ("2025.04.28.321" : String) ≠ "20250428.321" := by decide

/-- C8 (amended): for every context whose branch equals the configured
default branch, `Version` always succeeds and returns the prefixed string
`<date>.<pipelineID>` formatted from the supplied timestamp with the dotted
date layout "2006.01.02"; in the representative scenario (branch main,
pipeline id 321, date 2025-04-28) the output is "2025.04.28.321". -/
theorem C8_amended (c : BuildContext) (res : LookupResult) (now : Date)
    (h : c.Branch = c.Config.DefaultBranch) :
    c.Version res now
      = .ok (addPrefix (fmtDate c.Time ++ "." ++ c.PipelineID) c.Config.Prefix) :=
  version_default c res now h

/-- C8 witness: the representative scenario evaluated. -/
theorem C8_witness :
    (⟨"main", "321", ⟨2025, 4, 28⟩, ⟨"main", "", ""⟩⟩ : BuildContext).Version
        ([], none) ⟨2025, 4, 28⟩ = .ok "2025.04.28.321" :=
  (C8_amended ⟨"main", "321", ⟨2025, 4, 28⟩, ⟨"main", "", ""⟩⟩ ([], none)
    ⟨2025, 4, 28⟩ rfl).trans (by decide)

/-- C10: for every context whose branch equals the configured default branch,
the output of `Version` is the same for every tag-lookup result, including a
failing lookup: the default path never consults the lookup result. -/
theorem C10_default_ignores_lookup (c : BuildContext) (res res2 : LookupResult)
    (now : Date) (h : c.Branch = c.Config.DefaultBranch) :
    c.Version res now = c.Version res2 now :=
  (version_default c res now h).trans (version_default c res2 now h).symm

/-- C10 witness: a populated snapshot with a failing lookup versus an empty
successful one, same default-branch output. -/
theorem C10_witness :
    (⟨"main", "321", ⟨2025, 4, 28⟩, ⟨"main", "", ""⟩⟩ : BuildContext).Version
        (["2025.04.28.99"], some "lookup failed") ⟨2025, 4, 28⟩
      = (⟨"main", "321", ⟨2025, 4, 28⟩, ⟨"main", "", ""⟩⟩ : BuildContext).Version
        ([], none) ⟨2025, 4, 28⟩ :=
  C10_default_ignores_lookup ⟨"main", "321", ⟨2025, 4, 28⟩, ⟨"main", "", ""⟩⟩
    (["2025.04.28.99"], some "lookup failed") ([], none) ⟨2025, 4, 28⟩ rfl

/-- C7: every branch with the literal "release/" prefix that differs from the
default branch classifies as Release, and when the remainder is malformed
(the release-branch pattern does not match) `Version` fails with the
"invalid release branch" error: classification and validation are separate
stages. -/
theorem C7_release_classify_and_error (c : BuildContext) (res : LookupResult)
    (now : Date) (hne : c.Branch ≠ c.Config.DefaultBranch)
    (hpre : hasPrefixL c.Branch.data "release/".data = true) :
    classify c.Config.DefaultBranch c.Branch = .typeRelease
    ∧ (relParseL c.Branch.data = none →
        c.Version res now = .error ("invalid release branch: " ++ c.Branch)) := by
  have hcl : classify c.Config.DefaultBranch c.Branch = .typeRelease := by
    simp [classify, hne, hpre]
  refine ⟨hcl, fun hnone => ?_⟩
  rw [version_release c res now hcl]
  unfold nextPatch
  rw [hnone]

/-- C7 witness: "release/bogus" classifies as Release and fails with the
invalid-release-branch error. -/
theorem C7_witness :
    classify "main" "release/bogus" = branchKind.typeRelease
    ∧ (relParseL ("release/bogus" : String).data = none →
        (⟨"release/bogus", "321", ⟨2025, 4, 28⟩, ⟨"main", "", ""⟩⟩ : BuildContext).Version
            ([], none) ⟨2025, 4, 28⟩
          = .error ("invalid release branch: " ++ "release/bogus")) :=
  C7_release_classify_and_error
    ⟨"release/bogus", "321", ⟨2025, 4, 28⟩, ⟨"main", "", ""⟩⟩ ([], none)
    ⟨2025, 4, 28⟩ (by decide) (by decide)

/-- C3 counterexample: a failing tag lookup is NOT propagated: with the
lookup returning an error, both the feature history-based path and the
release path still succeed. -/
theorem C3_counterexample :
    (⟨"feat/x", "321", ⟨2025, 4, 28⟩, ⟨"main", "", ""⟩⟩ : BuildContext).Version
        ([], some "lookup failed") ⟨2025, 4, 28⟩ = .ok "2025.04.28.0.321"
    ∧ (⟨"release/v2025.04.28.100", "321", ⟨2025, 4, 28⟩, ⟨"main", "", ""⟩⟩ :
        BuildContext).Version (["2025.04.28.100"], some "lookup failed") ⟨2025, 4, 28⟩
      = .ok "2025.04.28.100.1" := by decide

/-- C3 (amended): the error component of the lookup result is discarded on
every path (`ts, _ := lookup()`): the result of `Version` depends only on
the returned tag list, and a lookup error is never returned to the caller. -/
theorem C3_amended (c : BuildContext) (tags : List String) (e : Option String)
    (now : Date) : c.Version (tags, e) now = c.Version (tags, none) now := rfl

/-- C4: the code contradicts the determinism claim: on the feature path with
no matching final tag, `latestFinal` seeds the base from the wall clock
`time.Now()` instead of the context timestamp, so a fixed BuildContext and
fixed lookup result give different outputs on different days (context Time
fixed at 2025-04-28). -/
theorem C4_code_bug :
    (⟨"feat/x", "321", ⟨2025, 4, 28⟩, ⟨"main", "", ""⟩⟩ : BuildContext).Version
        ([], none) ⟨2025, 4, 28⟩ = .ok "2025.04.28.0.321"
    ∧ (⟨"feat/x", "321", ⟨2025, 4, 28⟩, ⟨"main", "", ""⟩⟩ : BuildContext).Version
        ([], none) ⟨2025, 4, 29⟩ = .ok "2025.04.29.0.321"
    ∧ (⟨"feat/x", "321", ⟨2025, 4, 28⟩, ⟨"main", "", ""⟩⟩ : BuildContext).Version
        ([], none) ⟨2025, 4, 28⟩
      ≠ (⟨"feat/x", "321", ⟨2025, 4, 28⟩, ⟨"main", "", ""⟩⟩ : BuildContext).Version
        ([], none) ⟨2025, 4, 29⟩ := by decide

/-- C2 counterexample: a non-empty tag snapshot in which no tag matches the
final-tag pattern does NOT make the feature path fail: `Version` succeeds
with the date-seeded fallback base instead of a "no matching final tag"
error. -/
theorem C2_counterexample :
    ((["not-a-calver"] : List String) ≠ [])
    ∧ (∀ t ∈ (["not-a-calver"] : List String), matchFinal t.data = false)
    ∧ (⟨"feat/x", "321", ⟨2025, 4, 28⟩, ⟨"main", "", ""⟩⟩ : BuildContext).Version
        (["not-a-calver"], none) ⟨2025, 4, 28⟩ = .ok "2025.04.28.0.321" := by decide

/-- C2 (amended): on a feature-classified branch, a non-empty snapshot with
no tag matching the final-tag pattern does not fail: `Version` behaves
exactly as on the empty snapshot, silently seeding the base from the current
date. -/
theorem C2_amended (c : BuildContext) (tags : List String) (e : Option String)
    (now : Date)
    (hcl : classify c.Config.DefaultBranch c.Branch = .typeFeature)
    (_hne : tags ≠ [])
    (hnm : ∀ t ∈ tags, matchFinal t.data = false) :
    c.Version (tags, e) now = c.Version ([], e) now := by
  have hlf : latestFinal (tags, e) now = latestFinal ([], e) now := by
    simp [latestFinal, lastScan_unmatched tags "" hnm]
  rw [version_feature c (tags, e) now hcl, version_feature c ([], e) now hcl, hlf]

/-- C2 witness: concrete feature build with a single non-matching tag. -/
theorem C2_witness :
    (⟨"feat/x", "321", ⟨2025, 4, 28⟩, ⟨"main", "", ""⟩⟩ : BuildContext).Version
        (["not-a-calver"], none) ⟨2025, 4, 28⟩
      = (⟨"feat/x", "321", ⟨2025, 4, 28⟩, ⟨"main", "", ""⟩⟩ : BuildContext).Version
        ([], none) ⟨2025, 4, 28⟩ :=
  C2_amended ⟨"feat/x", "321", ⟨2025, 4, 28⟩, ⟨"main", "", ""⟩⟩ ["not-a-calver"]
    none ⟨2025, 4, 28⟩ (by decide) (by decide) (by decide)

/-- C5: on a feature-classified branch with an empty tag snapshot, `Version`
never fails: it succeeds with the base seeded from the current date
(`<date>.0`), combined with the pipeline id and the configured
prefix/suffix as usual. -/
theorem C5_feature_empty_snapshot (c : BuildContext) (e : Option String)
    (now : Date)
    (hcl : classify c.Config.DefaultBranch c.Branch = .typeFeature) :
    c.Version ([], e) now = .ok (addPrefix
      (if trimPrefixDash c.Config.FeatureSuffix ≠ "" then
          (fmtDate now ++ ".0") ++ "." ++ c.PipelineID ++ "-" ++
            trimPrefixDash c.Config.FeatureSuffix
        else (fmtDate now ++ ".0") ++ "." ++ c.PipelineID)
      c.Config.Prefix) := by
  rw [version_feature c ([], e) now hcl]
  rfl

/-- C5 witness: first-ever feature build with prefix and suffix configured. -/
theorem C5_witness :
    (⟨"feat/pay", "321", ⟨2025, 4, 28⟩, ⟨"main", "cli", "SNAPSHOT"⟩⟩ :
        BuildContext).Version ([], none) ⟨2025, 4, 28⟩
      = .ok "cli-2025.04.28.0.321-SNAPSHOT" :=
  (C5_feature_empty_snapshot
    ⟨"feat/pay", "321", ⟨2025, 4, 28⟩, ⟨"main", "cli", "SNAPSHOT"⟩⟩ none
    ⟨2025, 4, 28⟩ (by decide)).trans (by decide)

/-- C9: configuring the "cli-" prefix produces output identical to the "cli"
prefix on every context; configuring the "-SNAPSHOT" feature suffix produces
output identical to "SNAPSHOT" on every context (in particular feature
builds); an empty prefix leaves the value unchanged. -/
theorem C9_affix_idempotent (c : BuildContext) (res : LookupResult) (now : Date)
    (v : String) :
    ({ c with Config := { c.Config with Prefix := "cli-" } } : BuildContext).Version res now
      = ({ c with Config := { c.Config with Prefix := "cli" } } : BuildContext).Version res now
    ∧ ({ c with Config := { c.Config with FeatureSuffix := "-SNAPSHOT" } } :
        BuildContext).Version res now
      = ({ c with Config := { c.Config with FeatureSuffix := "SNAPSHOT" } } :
        BuildContext).Version res now
    ∧ addPrefix v "" = v := by
  have hpre : ∀ w : String, addPrefix w "cli-" = addPrefix w "cli" := by
    intro w
    unfold addPrefix
    rw [if_neg (by decide : ¬("cli-" = "")), if_neg (by decide : ¬("cli" = "")),
      (by decide : trimSuffixDash "cli-" = trimSuffixDash "cli")]
  have hsuf : trimPrefixDash "-SNAPSHOT" = trimPrefixDash "SNAPSHOT" := by decide
  refine ⟨?_, ?_, rfl⟩
  · show (BuildContext.mk c.Branch c.PipelineID c.Time
        ⟨c.Config.DefaultBranch, "cli-", c.Config.FeatureSuffix⟩).Version res now
      = (BuildContext.mk c.Branch c.PipelineID c.Time
        ⟨c.Config.DefaultBranch, "cli", c.Config.FeatureSuffix⟩).Version res now
    unfold BuildContext.Version
    cases classify c.Config.DefaultBranch c.Branch with
    | typeDefault => simp only [hpre]
    | typeRelease =>
      cases hnp : nextPatch c.Branch res with
      | error e => simp only [hnp]
      | ok bp =>
        cases bp with
        | mk b p => simp only [hnp, hpre]
    | typeFeature => simp only [hpre]
  · show (BuildContext.mk c.Branch c.PipelineID c.Time
        ⟨c.Config.DefaultBranch, c.Config.Prefix, "-SNAPSHOT"⟩).Version res now
      = (BuildContext.mk c.Branch c.PipelineID c.Time
        ⟨c.Config.DefaultBranch, c.Config.Prefix, "SNAPSHOT"⟩).Version res now
    unfold BuildContext.Version
    cases classify c.Config.DefaultBranch c.Branch with
    | typeDefault => rfl
    | typeRelease => rfl
    | typeFeature => simp only [hsuf]

/-- C6 counterexample: the implemented final-tag pattern does NOT accept the
`DATE.BUILD.PATCH` shape: with the snapshot containing both
"2025.04.28.100" and the lexicographically greater "2025.04.28.100.5"
(which matches the claim's both-shapes pattern), the base used by the
feature path is "2025.04.28.100", not the lexicographically greatest
both-shapes match. -/
theorem C6_counterexample :
    specFinalTag ("2025.04.28.100.5" : String).data = true
    ∧ ("2025.04.28.100.5" : String)
        ∈ (["2025.04.28.100", "2025.04.28.100.5"] : List String)
    ∧ ltL ("2025.04.28.100" : String).data ("2025.04.28.100.5" : String).data = true
    ∧ latestFinal (["2025.04.28.100", "2025.04.28.100.5"], none) ⟨2025, 4, 28⟩
      = "2025.04.28.100"
    ∧ (⟨"feat/x", "321", ⟨2025, 4, 28⟩, ⟨"main", "", ""⟩⟩ : BuildContext).Version
        (["2025.04.28.100", "2025.04.28.100.5"], none) ⟨2025, 4, 28⟩
      = .ok "2025.04.28.100.321" := by decide

/-- C6 (amended): on a feature-classified branch whose snapshot contains at
least one tag matching the final-tag pattern, the base used by `Version` is
the lexicographically greatest snapshot tag matching that pattern, where the
pattern accepts only the `DATE.BUILD` shape (`^\d{4}\.\d{2}\.\d{2}\.\d+$`);
tags with a further `.PATCH` field do not match it. -/
theorem C6_amended (c : BuildContext) (tags : List String) (e : Option String)
    (now : Date) (t0 : String)
    (hcl : classify c.Config.DefaultBranch c.Branch = .typeFeature)
    (h0 : t0 ∈ tags) (hm0 : matchFinal t0.data = true) :
    latestFinal (tags, e) now ∈ tags
    ∧ matchFinal (latestFinal (tags, e) now).data = true
    ∧ (∀ t ∈ tags, matchFinal t.data = true →
        ltL (latestFinal (tags, e) now).data t.data = false)
    ∧ (c.Config.Prefix = "" → c.Config.FeatureSuffix = "" →
        c.Version (tags, e) now
          = .ok (latestFinal (tags, e) now ++ "." ++ c.PipelineID)) := by
  have hge : ltL (tags.foldl lastStep "").data t0.data = false :=
    lastScan_ge_elem tags "" t0 h0 hm0
  have hr : tags.foldl lastStep "" ≠ "" := by
    intro h
    rw [h] at hge
    cases ht0 : t0.data with
    | nil => exact matchFinal_ne_nil hm0 ht0
    | cons a as => rw [ht0] at hge; simp [ltL] at hge
  have hlf : latestFinal (tags, e) now = tags.foldl lastStep "" := by
    show (if tags.foldl lastStep "" = "" then fmtDate now ++ ".0"
        else tags.foldl lastStep "") = tags.foldl lastStep ""
    exact if_neg hr
  rcases lastScan_mem tags "" with hmem | ⟨hmem, hmatch⟩
  · exact absurd hmem hr
  refine ⟨?_, ?_, ?_, ?_⟩
  · rw [hlf]; exact hmem
  · rw [hlf]; exact hmatch
  · intro t ht hm
    rw [hlf]
    exact lastScan_ge_elem tags "" t ht hm
  · intro hp hs
    rw [version_feature c (tags, e) now hcl, hp, hs]
    rfl

/-- C6 witness: a snapshot with one matching and one junk tag. -/
theorem C6_witness :
    latestFinal ((["2025.04.27.17", "zzz"] : List String), none) ⟨2025, 4, 28⟩
        ∈ (["2025.04.27.17", "zzz"] : List String)
    ∧ matchFinal (latestFinal ((["2025.04.27.17", "zzz"] : List String), none)
        ⟨2025, 4, 28⟩).data = true
    ∧ (∀ t ∈ (["2025.04.27.17", "zzz"] : List String), matchFinal t.data = true →
        ltL (latestFinal ((["2025.04.27.17", "zzz"] : List String), none)
          ⟨2025, 4, 28⟩).data t.data = false)
    ∧ ((⟨"feat/x", "321", ⟨2025, 4, 28⟩, ⟨"main", "", ""⟩⟩ :
          BuildContext).Config.Prefix = "" →
        (⟨"feat/x", "321", ⟨2025, 4, 28⟩, ⟨"main", "", ""⟩⟩ :
          BuildContext).Config.FeatureSuffix = "" →
        (⟨"feat/x", "321", ⟨2025, 4, 28⟩, ⟨"main", "", ""⟩⟩ : BuildContext).Version
            ((["2025.04.27.17", "zzz"] : List String), none) ⟨2025, 4, 28⟩
          = .ok (latestFinal ((["2025.04.27.17", "zzz"] : List String), none)
              ⟨2025, 4, 28⟩ ++ "." ++
              (⟨"feat/x", "321", ⟨2025, 4, 28⟩, ⟨"main", "", ""⟩⟩ :
                BuildContext).PipelineID)) :=
  C6_amended ⟨"feat/x", "321", ⟨2025, 4, 28⟩, ⟨"main", "", ""⟩⟩
    ["2025.04.27.17", "zzz"] none ⟨2025, 4, 28⟩ "2025.04.27.17"
    (by decide) (by decide) (by decide)

/-! ### Helpers for the release path -/

theorem relParseL_releasev (rest : List Char) :
    relParseL ('r' :: 'e' :: 'l' :: 'e' :: 'a' :: 's' :: 'e' :: '/' :: 'v' :: rest)
      = if matchFinal rest then some rest else none := rfl

theorem data_releasev (base : String) :
    ("release/v" ++ base).data
      = 'r' :: 'e' :: 'l' :: 'e' :: 'a' :: 's' :: 'e' :: '/' :: 'v' :: base.data := by
  rw [String.data_append]
  rfl

theorem nextPatch_releasev (base : String) (tags : List String) (e : Option String)
    (hbase : matchFinal base.data = true) :
    nextPatch ("release/v" ++ base) (tags, e)
      = .ok (base, wrap64 (scanMax base.data tags + 1)) := by
  have hmk : String.mk base.data = base := rfl
  unfold nextPatch
  rw [data_releasev base, relParseL_releasev]
  simp [hbase, hmk]

theorem classify_releasev (c : BuildContext) (base : String)
    (hbr : c.Branch = "release/v" ++ base)
    (hne : c.Branch ≠ c.Config.DefaultBranch) :
    classify c.Config.DefaultBranch c.Branch = .typeRelease := by
  have hp8 : hasPrefixL c.Branch.data "release/".data = true := by
    rw [hbr, data_releasev base]
    rfl
  simp [classify, hne, hp8]

theorem patchDigits_append (base ds : List Char) (h1 : ds ≠ [])
    (h2 : ds.all Char.isDigit = true) :
    patchDigits base (base ++ '.' :: ds) = some ds := by
  have ht : (base ++ '.' :: ds).take base.length = base := List.take_left base _
  have hd : (base ++ '.' :: ds).drop base.length = '.' :: ds := List.drop_left base _
  have h1b : ds.isEmpty = false := by
    cases ds with
    | nil => exact absurd rfl h1
    | cons a as => rfl
  simp [patchDigits, ht, hd, h1b, h2]

theorem patchBelow_lt {base : List Char} {t : String} {ds : List Char}
    (hb : patchBelow base t = true) (hds : patchDigits base t.data = some ds) :
    digitsVal ds < 2 ^ 63 - 1 := by
  unfold patchBelow at hb
  rw [hds] at hb
  exact of_decide_eq_true hb

/-- C1 counterexample: with the snapshot containing the same-base tag
`2025.04.28.100.9223372036854775807` (patch value `2^63 - 1`), Go `int`
arithmetic overflows in `max + 1` and the emitted patch is the negative
`-9223372036854775808`, which is not strictly greater than the existing
same-base number, and not 1 either. -/
theorem C1_counterexample :
    ("2025.04.28.100." ++ Nat.repr 9223372036854775807 : String)
        ∈ (["2025.04.28.100.9223372036854775807"] : List String)
    ∧ digitsVal ("9223372036854775807" : String).data = 9223372036854775807
    ∧ nextPatch "release/v2025.04.28.100"
        (["2025.04.28.100.9223372036854775807"], none)
      = .ok ("2025.04.28.100", -9223372036854775808)
    ∧ (⟨"release/v2025.04.28.100", "321", ⟨2025, 4, 28⟩, ⟨"main", "", ""⟩⟩ :
        BuildContext).Version
        (["2025.04.28.100.9223372036854775807"], none) ⟨2025, 4, 28⟩
      = .ok "2025.04.28.100.-9223372036854775808"
    ∧ ¬ ((9223372036854775807 : Int) < -9223372036854775808) := by decide

/-- C1 (amended): on branch `release/v<base>` (base matching the
date/pipeline syntax), provided every snapshot tag matching the per-base
patch pattern carries a value below `2^63 - 1` (no Go `int` overflow), the
Release path of `Version` outputs exactly `<base>.<patch>` with
patch = (maximum matched patch value in the snapshot) + 1: a positive
number, strictly greater than the value of every digit string `ds` with
`<base>.<ds>` in the snapshot, and equal to 1 when no snapshot tag matches
the per-base patch pattern; in particular snapshot {base.1, base.2} gives
patch 3 and the empty snapshot gives patch 1 (see the witness). -/
theorem C1_amended (c : BuildContext) (base : String) (tags : List String)
    (e : Option String) (now : Date)
    (hbr : c.Branch = "release/v" ++ base)
    (hne : c.Branch ≠ c.Config.DefaultBranch)
    (hpre : c.Config.Prefix = "")
    (hbase : matchFinal base.data = true)
    (hbound : ∀ t ∈ tags, patchBelow base.data t = true) :
    c.Version (tags, e) now
        = .ok (base ++ "." ++ toString (scanMax base.data tags + 1))
      ∧ 0 < scanMax base.data tags + 1
      ∧ (∀ ds : List Char, ds ≠ [] → ds.all Char.isDigit = true →
          String.mk (base.data ++ '.' :: ds) ∈ tags →
          (digitsVal ds : Int) < scanMax base.data tags + 1)
      ∧ ((∀ t ∈ tags, patchDigits base.data t.data = none) →
          scanMax base.data tags + 1 = 1) := by
  have hcl : classify c.Config.DefaultBranch c.Branch = .typeRelease :=
    classify_releasev c base hbr hne
  have hnp : nextPatch c.Branch (tags, e)
      = .ok (base, wrap64 (scanMax base.data tags + 1)) := by
    rw [hbr]
    exact nextPatch_releasev base tags e hbase
  have hMge0 : 0 ≤ scanMax base.data tags := scanFold_ge_init base.data tags 0
  have hMle : scanMax base.data tags ≤ 2 ^ 63 - 2 := by
    refine scanFold_le base.data (2 ^ 63 - 2) tags 0 (by norm_num) ?_
    intro t ht ds hds
    have hlt : digitsVal ds < 2 ^ 63 - 1 := patchBelow_lt (hbound t ht) hds
    have hlt2 : (digitsVal ds : Int) ≤ 2 ^ 63 - 2 := by
      norm_num at hlt ⊢
      omega
    exact le_trans (min_le_left _ _) hlt2
  have hMeq : wrap64 (scanMax base.data tags + 1) = scanMax base.data tags + 1 := by
    refine wrap64_eq ?_ ?_
    · have : (0 : Int) ≤ 2 ^ 63 := by norm_num
      linarith
    · have : (2 : Int) ^ 63 - 2 + 1 < 2 ^ 63 := by norm_num
      linarith
  refine ⟨?_, by omega, ?_, ?_⟩
  · rw [version_release c (tags, e) now hcl, hnp, hMeq, hpre]
    rfl
  · intro ds hds1 hds2 hmem
    have hpd : patchDigits base.data (String.mk (base.data ++ '.' :: ds)).data
        = some ds := by
      show patchDigits base.data (base.data ++ '.' :: ds) = some ds
      exact patchDigits_append base.data ds hds1 hds2
    have hge : atoiGo ds ≤ scanMax base.data tags :=
      scanFold_ge_elem base.data tags 0 _ ds hmem hpd
    have hlt : digitsVal ds < 2 ^ 63 - 1 :=
      patchBelow_lt (hbound _ hmem) hpd
    have hato : atoiGo ds = (digitsVal ds : Int) := by
      unfold atoiGo
      refine min_eq_left ?_
      have h3 : (digitsVal ds : Int) < 2 ^ 63 - 1 := by
        norm_num at hlt ⊢
        omega
      linarith
    rw [hato] at hge
    omega
  · intro hnone
    have h0 : scanMax base.data tags = 0 := scanFold_none base.data tags 0 hnone
    rw [h0]
    norm_num

/-- C1 witness: the exact instances of the claim: snapshot {base.1, base.2}
on branch release/v<base> yields patch 3, and the empty snapshot yields
patch 1. -/
theorem C1_witness :
    (⟨"release/v2025.04.28.100", "321", ⟨2025, 4, 28⟩, ⟨"main", "", ""⟩⟩ :
        BuildContext).Version
        ((["2025.04.28.100.1", "2025.04.28.100.2"] : List String), none)
        ⟨2025, 4, 28⟩ = .ok "2025.04.28.100.3"
    ∧ (⟨"release/v2025.04.28.100", "321", ⟨2025, 4, 28⟩, ⟨"main", "", ""⟩⟩ :
        BuildContext).Version (([] : List String), none) ⟨2025, 4, 28⟩
      = .ok "2025.04.28.100.1" :=
  ⟨((C1_amended
      ⟨"release/v2025.04.28.100", "321", ⟨2025, 4, 28⟩, ⟨"main", "", ""⟩⟩
      "2025.04.28.100" ["2025.04.28.100.1", "2025.04.28.100.2"] none
      ⟨2025, 4, 28⟩ (by decide) (by decide) rfl (by decide) (by decide)).1).trans
      (by decide),
   ((C1_amended
      ⟨"release/v2025.04.28.100", "321", ⟨2025, 4, 28⟩, ⟨"main", "", ""⟩⟩
      "2025.04.28.100" [] none
      ⟨2025, 4, 28⟩ (by decide) (by decide) rfl (by decide) (by decide)).1).trans
      (by decide)⟩

end Versioner
